import Mathlib

/-!
Verification development for the peer-review ML pipeline
(`src/ml_pipeline.py`, class `PeerReviewMLPipeline`).

The pipeline's numeric computations are embedded over `ℚ` (pandas floats
become exact rationals; the `1e-8` epsilon guard is the exact rational
`1/10^8`).  Pandas `NaN` is embedded as `Option ℚ` with `none` for NaN,
and `fillna` replaces `none` by a default.  Column-wise DataFrame
operations become operations on `List ℚ` (one list per column, one entry
per row).
-/

set_option autoImplicit false

namespace PeerReview

/-! ### Generic list helpers (pandas `Series.min` / `Series.max` / `mean`) -/

/-- `Series.min` on a list: minimum of a list, `0` for the empty list
(pandas would give NaN there; all uses below are on non-empty lists). -/
def listMin : List ℚ → ℚ
  | [] => 0
  | x :: xs => xs.foldl min x

/-- `Series.max` on a list: maximum of a list, `0` for the empty list. -/
def listMax : List ℚ → ℚ
  | [] => 0
  | x :: xs => xs.foldl max x

/-- `Series.mean`: sum divided by length (`0/0 = 0` in `ℚ` for the empty
list, matching no use site: all callers pass non-empty lists). -/
def mean (xs : List ℚ) : ℚ := xs.sum / (xs.length : ℚ)

/-! ### Composite Scorer (`create_composite_score`, lines 156–181) -/

/-- The `1e-8` epsilon guard added to every min–max denominator. -/
def eps : ℚ := 1 / 100000000

/-- The five feature columns consumed by `create_composite_score`, one
record per table row (all five columns exist on every engineered table). -/
structure FeatureRow where
  avg_score : ℚ
  pct_collaborative : ℚ
  pct_withdrawn : ℚ
  pct_blocking : ℚ
  score_volatility_7d : ℚ
deriving DecidableEq, Repr

/-- Min–max normalisation of one value against its column:
`(x - col.min()) / (col.max() - col.min() + 1e-8)`. -/
def normVal (x mn mx : ℚ) : ℚ := (x - mn) / (mx - mn + eps)

/-- The weighted sum accumulated over the five features
(weights `0.3, 0.25, -0.15, -0.2, -0.1`), per row. -/
def rawComposite (rows : List FeatureRow) (r : FeatureRow) : ℚ :=
  (3/10) * normVal r.avg_score (listMin (rows.map FeatureRow.avg_score))
      (listMax (rows.map FeatureRow.avg_score))
  + (25/100) * normVal r.pct_collaborative (listMin (rows.map FeatureRow.pct_collaborative))
      (listMax (rows.map FeatureRow.pct_collaborative))
  + (-15/100) * normVal r.pct_withdrawn (listMin (rows.map FeatureRow.pct_withdrawn))
      (listMax (rows.map FeatureRow.pct_withdrawn))
  + (-20/100) * normVal r.pct_blocking (listMin (rows.map FeatureRow.pct_blocking))
      (listMax (rows.map FeatureRow.pct_blocking))
  + (-10/100) * normVal r.score_volatility_7d (listMin (rows.map FeatureRow.score_volatility_7d))
      (listMax (rows.map FeatureRow.score_volatility_7d))

/-- `create_composite_score`: weighted sum of the five min–max-normalised
feature columns, then the result column itself rescaled by
`1 + 4 * (s - s.min()) / (s.max() - s.min() + 1e-8)`. -/
def create_composite_score (rows : List FeatureRow) : List ℚ :=
  let ws := rows.map (rawComposite rows)
  ws.map (fun s => 1 + 4 * (s - listMin ws) / (listMax ws - listMin ws + eps))

/-! ### Rolling-window features (`add_rolling_features`, lines 97–137)

The per-employee series of a single column (after the `sort_values` by
employee and date) is a `List ℚ`.  Pandas rolling/diff results that can
be NaN are `List (Option ℚ)`; `fillna` discharges the `none`s. -/

/-- The trailing window of at most `w` observations ending at row `i`:
rows `max 0 (i+1-w) … i` (natural subtraction gives the `max 0`). -/
def windowSlice (xs : List ℚ) (i w : Nat) : List ℚ :=
  (xs.take (i + 1)).drop (i + 1 - w)

/-- `x.rolling(window, min_periods=1).mean()`: NaN (`none`) only when the
window holds no observation, which never happens at a valid row index. -/
def rollingMeanOpt (w : Nat) (xs : List ℚ) : List (Option ℚ) :=
  (List.range xs.length).map (fun i =>
    if 1 ≤ (windowSlice xs i w).length then some (mean (windowSlice xs i w)) else none)

/-- Sample variance with `ddof = 1` (pandas default), on a list of `n ≥ 2`
observations. -/
def sampleVar (xs : List ℚ) : ℚ :=
  (xs.map (fun x => (x - mean xs) ^ 2)).sum / ((xs.length : ℚ) - 1)

/-- `x.rolling(window, min_periods=1).std()`: NaN (`none`) when the window
holds fewer than 2 observations.  The source's value is the square root of
this sample variance; `√` is irrational so the embedding carries the
variance, which is `none`/`some`, zero and sign-faithful to the source. -/
def rollingStdOpt (w : Nat) (xs : List ℚ) : List (Option ℚ) :=
  (List.range xs.length).map (fun i =>
    if 2 ≤ (windowSlice xs i w).length then some (sampleVar (windowSlice xs i w)) else none)

/-- `x.diff(n)`: `x[i] - x[i-n]` for `i ≥ n`, NaN (`none`) for the first
`n` rows of the employee's series. -/
def diffSeries (n : Nat) (xs : List ℚ) : List (Option ℚ) :=
  (List.range xs.length).map (fun i =>
    if n ≤ i then some (xs.getD i 0 - xs.getD (i - n) 0) else none)

/-- `Series.fillna(v)`: replace every NaN by `v`. -/
def fillna (v : ℚ) (xs : List (Option ℚ)) : List ℚ := xs.map (fun o => o.getD v)

/-- The trend feature of `add_rolling_features`:
`x.diff(window).fillna(0)` applied to the per-employee column series
(both `score_trend_{W}d` from `avg_score` and `collab_trend_{W}d` from
`pct_collaborative` use this same computation). -/
def trendFeature (w : Nat) (xs : List ℚ) : List ℚ := fillna 0 (diffSeries w xs)

/-- The spec's wording of the trend feature: the current `w`-window rolling
mean minus the rolling mean `w` rows earlier, `0` when fewer than `w`
prior rows exist.  (Stated from the spec, for comparison with
`trendFeature` above, which is translated from the source.) -/
def specTrendFeature (w : Nat) (xs : List ℚ) : List ℚ :=
  let rm := fillna 0 (rollingMeanOpt w xs)
  (List.range xs.length).map (fun i =>
    if w ≤ i then rm.getD i 0 - rm.getD (i - w) 0 else 0)

/-! ### Raw review events and the daily aggregation
(`engineer_features`, lines 41–95) -/

/-- The raw `date` column: either still a string or already converted by
`pd.to_datetime` (dates are abstracted to an integer day key: only
"string vs datetime" and equality/order of days matter to the claims). -/
inductive DateVal where
  | str (s : String)
  | dt (day : Int)
deriving DecidableEq, Repr

/-- `pd.to_datetime` on one cell.  The parse itself is abstracted to the
string's day key via `String.length`-independent stand-in: a cell already
in datetime form is unchanged, a string cell becomes a datetime cell. -/
def toDatetime (parse : String → Int) : DateVal → DateVal
  | .str s => .dt (parse s)
  | .dt d => .dt d

/-- Whether a cell is in datetime form. -/
def DateVal.isDt : DateVal → Bool
  | .str _ => false
  | .dt _ => true

/-- One raw review event (a row of the reviews DataFrame). -/
structure ReviewEvent where
  reviewer_id : String
  reviewee_id : String
  date : Int
  descriptor : String
  score : Int
  comment : String
deriving DecidableEq, Repr

/-- The `descriptor_scores` mapping of the pipeline constructor;
`Series.map` yields NaN (`none`) for a descriptor outside the four keys. -/
def descriptor_scores : String → Option ℚ
  | "collaborative" => some 4
  | "neutral" => some 3
  | "withdrawn" => some 2
  | "blocking" => some 1
  | _ => none

/-- The caller-visible state of the reviews DataFrame: the column lists,
with `date` possibly unparsed and `descriptor_score` possibly absent. -/
structure RawDF where
  reviewer_id : List String
  reviewee_id : List String
  date : List DateVal
  descriptor : List String
  score : List Int
  comment : List String
  descriptor_score : Option (List (Option ℚ))
deriving DecidableEq, Repr

/-- The in-place mutation `engineer_features` performs on its argument
(lines 51–55): `df['date'] = pd.to_datetime(df['date'])` and
`df['descriptor_score'] = df['descriptor'].map(self.descriptor_scores)`.
The returned engineered table is separate; this is the state the caller's
DataFrame is left in. -/
def engineer_features_mutation (parse : String → Int) (df : RawDF) : RawDF :=
  { df with
    date := df.date.map (toDatetime parse)
    descriptor_score := some (df.descriptor.map descriptor_scores) }

/-- The proportion `(group[col] == v).mean()`: fraction of rows of a group
satisfying a predicate. -/
def prop (p : ReviewEvent → Bool) (g : List ReviewEvent) : ℚ :=
  ((g.countP p : ℚ)) / (g.length : ℚ)

/-- One `DailyFeatureVector` row, as built in the `groupby` loop of
`engineer_features` (the engagement metrics are included for
completeness; the ML-era columns are added later). -/
structure DailyRow where
  employee_id : String
  date : Int
  avg_score : ℚ
  avg_descriptor_score : Option ℚ
  review_count : Nat
  score_std : ℚ
  pct_collaborative : ℚ
  pct_withdrawn : ℚ
  pct_neutral : ℚ
  pct_blocking : ℚ
  pct_score_5 : ℚ
  pct_score_4 : ℚ
  pct_score_3 : ℚ
  pct_score_2 : ℚ
  pct_score_1 : ℚ
  has_comments : Bool
  comment_ratio : ℚ
deriving DecidableEq, Repr

/-- `Series.mean` over an `Option ℚ` column: pandas skips NaNs. -/
def meanOpt (xs : List (Option ℚ)) : Option ℚ :=
  let vals := xs.filterMap id
  if vals.length = 0 then none else some (mean vals)

/-- The aggregation body of the `groupby(['reviewee_id', 'date'])` loop:
one feature row from one non-empty `(reviewee, date)` group. -/
def dailyRowOfGroup (reviewee : String) (day : Int) (g : List ReviewEvent) : DailyRow :=
  { employee_id := reviewee
    date := day
    avg_score := mean (g.map (fun e => (e.score : ℚ)))
    avg_descriptor_score := meanOpt (g.map (fun e => descriptor_scores e.descriptor))
    review_count := g.length
    score_std := if 1 < g.length then sampleVar (g.map (fun e => (e.score : ℚ))) else 0
    pct_collaborative := prop (fun e => e.descriptor == "collaborative") g
    pct_withdrawn := prop (fun e => e.descriptor == "withdrawn") g
    pct_neutral := prop (fun e => e.descriptor == "neutral") g
    pct_blocking := prop (fun e => e.descriptor == "blocking") g
    pct_score_5 := prop (fun e => e.score == 5) g
    pct_score_4 := prop (fun e => e.score == 4) g
    pct_score_3 := prop (fun e => e.score == 3) g
    pct_score_2 := prop (fun e => e.score == 2) g
    pct_score_1 := prop (fun e => e.score == 1) g
    has_comments := g.any (fun e => 0 < e.comment.length)
    comment_ratio := prop (fun e => 0 < e.comment.length) g }

/-! ### Feature-column discovery (`train_models` line 188,
`predict_scores` line 248) -/

/-- `train_models`: feature columns are every column of the training table
except `employee_id` and `date`; this list is recorded as
`self.feature_names`. -/
def train_feature_columns (cols : List String) : List String :=
  cols.filter (fun c => !(c == "employee_id") && !(c == "date"))

/-- `predict_scores`: feature columns are recomputed from the *inference*
table's own columns, excluding `employee_id`, `date` and
`composite_score`; the recorded `self.feature_names` is not consulted. -/
def predict_feature_columns (cols : List String) : List String :=
  cols.filter (fun c =>
    !(c == "employee_id") && !(c == "date") && !(c == "composite_score"))

/-! ### Model training (`train_models`, lines 183–244)

The pipeline object's mutable fields (`self.models`, `self.scalers`,
`self.feature_names`) are an explicit state; dictionary key assignment is
`insertKey`.  Each sklearn call that raises on its actual input sizes is
an explicit error checkpoint; the state returned alongside the error is
the object state at the moment the exception propagates. -/

/-- Minimum of a list of dates (`Series.min`), `0` on the empty list. -/
def listMinInt : List Int → Int
  | [] => 0
  | x :: xs => xs.foldl min x

/-- Maximum of a list of dates (`Series.max`), `0` on the empty list. -/
def listMaxInt : List Int → Int
  | [] => 0
  | x :: xs => xs.foldl max x

/-- The mutable ML state of a `PeerReviewMLPipeline` object: the key sets
of `self.models` and `self.scalers`, and `self.feature_names`. -/
structure MLState where
  models : List String
  scalers : List String
  feature_names : List String
deriving DecidableEq, Repr

/-- Python dict key assignment `d[k] = v` restricted to its key set. -/
def insertKey (k : String) (l : List String) : List String :=
  if k ∈ l then l else l ++ [k]

/-- One row of the feature table handed to `train_models`. -/
structure TRow where
  employee_id : String
  date : Int
  feats : List ℚ
deriving DecidableEq, Repr

/-- `train_models`: records the schema, attaches the composite target,
splits temporally (holdout = dates within 14 days of the table maximum),
and fits the three models, mutating the object state as the source does.
Returns the final object state and `some errorMessage` when a library
call raises on the given input (`none` = completed):
 * empty table ⇒ `create_composite_score` raises (`.min()` of scalar 0);
 * empty training partition ⇒ `RandomForestRegressor.fit` raises;
 * empty holdout ⇒ `mean_squared_error` raises;
 * fewer than 4 rows ⇒ `KMeans(n_clusters=4).fit` raises. -/
def train_models (s : MLState) (cols : List String) (tbl : List TRow) :
    MLState × Option String :=
  let s1 := { s with feature_names := train_feature_columns cols }
  if tbl.isEmpty then (s1, some "create_composite_score: empty table") else
  let testDate := listMaxInt (tbl.map TRow.date) - 14
  let trainRows := tbl.filter (fun r => decide (r.date ≤ testDate))
  let testRows := tbl.filter (fun r => decide (testDate < r.date))
  let s2 := { s1 with models := insertKey "score_predictor" s1.models }
  if trainRows.isEmpty then (s2, some "RandomForestRegressor.fit: 0 samples") else
  if testRows.isEmpty then (s2, some "mean_squared_error: 0 samples") else
  let s3 := { s2 with scalers := insertKey "anomaly" s2.scalers }
  let s4 := { s3 with models := insertKey "anomaly_detector" s3.models }
  let s5 := { s4 with scalers := insertKey "clustering" s4.scalers }
  let s6 := { s5 with models := insertKey "behavior_clusters" s5.models }
  if tbl.length < 4 then (s6, some "KMeans.fit: n_samples < n_clusters") else
  (s6, none)

/-! ### Insight assembly (`get_employee_insights`, lines 276–310, and
`predict_scores`, lines 246–274)

For one employee the windowed slice groups by date only.  The engineered
row for the insight path carries the directly aggregated fields plus the
columns the ML steps may add; a column that was never added is `none`
(`Series.get` with a default reads it). -/

/-- Insert into a sorted list of dates (ascending). -/
def insertSorted (x : Int) : List Int → List Int
  | [] => [x]
  | y :: ys => if x ≤ y then x :: y :: ys else y :: insertSorted x ys

/-- Sort a list of dates ascending (groupby emits groups in key order). -/
def sortInts (xs : List Int) : List Int := xs.foldr insertSorted []

/-- Accumulate a date if not yet seen (one groupby key per distinct
date). -/
def insertIfNew (acc : List Int) (x : Int) : List Int :=
  if x ∈ acc then acc else acc ++ [x]

/-- The distinct dates of a list, first occurrence order (groupby keys
before sorting; each date keys exactly one group). -/
def uniqueInts (xs : List Int) : List Int := xs.foldl insertIfNew []

/-- An engineered row of the insight path: the per-day aggregates, the
7-day rolling/trend columns the insight reads, and the ML prediction
columns (`none` when the corresponding column was never added). -/
structure IRow where
  employee_id : String
  date : Int
  avg_score : ℚ
  pct_collaborative : ℚ
  pct_withdrawn : ℚ
  pct_neutral : ℚ
  pct_blocking : ℚ
  review_count : Nat
  score_volatility_7d : ℚ
  score_trend_7d : ℚ
  composite_score : Option ℚ
  predicted_score : Option ℚ
  anomaly_score : Option ℚ
  is_anomaly : Option Bool
  behavior_cluster : Option Nat
deriving DecidableEq, Repr

/-- `engineer_features` on a one-employee slice: group by date, aggregate,
then the 7-day rolling and trend columns from `add_rolling_features`
(the single-employee series in date order).  No `composite_score` column
is ever created on this path. -/
def insightRows (emp : String) (evs : List ReviewEvent) : List IRow :=
  let dates := sortInts (uniqueInts (evs.map ReviewEvent.date))
  let groups := dates.map (fun d => (d, evs.filter (fun e => e.date == d)))
  let avgs := groups.map (fun p => mean (p.2.map (fun e => (e.score : ℚ))))
  let vol7 := fillna 0 (rollingStdOpt 7 avgs)
  let trend7 := trendFeature 7 avgs
  (List.range groups.length).map (fun i =>
    let p := groups.getD i ((0 : Int), ([] : List ReviewEvent))
    { employee_id := emp
      date := p.1
      avg_score := avgs.getD i 0
      pct_collaborative := prop (fun e => e.descriptor == "collaborative") p.2
      pct_withdrawn := prop (fun e => e.descriptor == "withdrawn") p.2
      pct_neutral := prop (fun e => e.descriptor == "neutral") p.2
      pct_blocking := prop (fun e => e.descriptor == "blocking") p.2
      review_count := p.2.length
      score_volatility_7d := vol7.getD i 0
      score_trend_7d := trend7.getD i 0
      composite_score := none
      predicted_score := none
      anomaly_score := none
      is_anomaly := none
      behavior_cluster := none })

/-- A loaded model set: the three fitted models as opaque prediction
functions (their numeric behaviour is sklearn's, outside the embedding;
only which columns they populate matters to the claims). -/
structure ModelSet where
  predictScore : IRow → ℚ
  anomalyScore : IRow → ℚ
  anomalyFlag : IRow → Bool
  clusterId : IRow → Nat

/-- `predict_scores`: adds the four prediction columns
(`predicted_score`, `anomaly_score`, `is_anomaly`, `behavior_cluster`)
to the table; it never adds a `composite_score` column. -/
def predict_scores (m : ModelSet) (rows : List IRow) : List IRow :=
  rows.map (fun r =>
    { r with
      predicted_score := some (m.predictScore r)
      anomaly_score := some (m.anomalyScore r)
      is_anomaly := some (m.anomalyFlag r)
      behavior_cluster := some (m.clusterId r) })

/-- The insight record returned by `get_employee_insights`. -/
structure EmployeeInsight where
  employee_id : String
  avg_score : ℚ
  composite_score : ℚ
  collaboration_rate : ℚ
  withdrawn_rate : ℚ
  score_trend_7d : ℚ
  is_anomaly : Bool
  behavior_cluster : Nat
  total_reviews : Nat
deriving DecidableEq, Repr

/-- Result of `get_employee_insights`: the error dictionary for an empty
window, or the insight record. -/
inductive InsightResult where
  | noData
  | insight (i : EmployeeInsight)
deriving DecidableEq, Repr

/-- `get_employee_insights`: engineer features on the employee's windowed
slice; if a model set is loaded (`self.models` non-empty) run
`predict_scores`; take the last row; read the ML-derived fields through
`Series.get` with defaults `0`, `False`, `0`. -/
def get_employee_insights (m : Option ModelSet) (emp : String)
    (evs : List ReviewEvent) : InsightResult :=
  if evs.isEmpty then .noData else
  let rows0 := insightRows emp evs
  let rows := match m with
    | none => rows0
    | some ms => predict_scores ms rows0
  match rows.getLast? with
  | none => .noData
  | some r => .insight
      { employee_id := emp
        avg_score := r.avg_score
        composite_score := r.composite_score.getD 0
        collaboration_rate := r.pct_collaborative
        withdrawn_rate := r.pct_withdrawn
        score_trend_7d := r.score_trend_7d
        is_anomaly := r.is_anomaly.getD false
        behavior_cluster := r.behavior_cluster.getD 0
        total_reviews := (rows.map IRow.review_count).sum }

/-- The `composite_score` field of a non-error insight. -/
def insightComposite : InsightResult → Option ℚ
  | .noData => none
  | .insight i => some i.composite_score

/-- Projection of an engineered insight row onto the five columns the
Composite Scorer consumes. -/
def featureRowOfIRow (r : IRow) : FeatureRow :=
  { avg_score := r.avg_score
    pct_collaborative := r.pct_collaborative
    pct_withdrawn := r.pct_withdrawn
    pct_blocking := r.pct_blocking
    score_volatility_7d := r.score_volatility_7d }

/-! ### Concrete instances used by witnesses and counterexamples -/

/-- Scenario-A group: three same-day events for employee `E` with
descriptors collaborative, collaborative, neutral and scores 4, 5, 3. -/
def scenarioA : List ReviewEvent :=
  [⟨"r1", "E", 0, "collaborative", 4, ""⟩,
   ⟨"r2", "E", 0, "collaborative", 5, ""⟩,
   ⟨"r3", "E", 0, "neutral", 3, ""⟩]

/-- An eight-row single-employee `avg_score` series: seven zeros then a
one. -/
def trendCex : List ℚ := [0, 0, 0, 0, 0, 0, 0, 1]

/-- Training-table columns of a minimal table. -/
def trainColsCex : List String := ["employee_id", "date", "avg_score"]

/-- Inference-table columns: the training columns plus one extra column. -/
def inferColsCex : List String := ["employee_id", "date", "avg_score", "extra_col"]

/-- A freshly constructed pipeline state: empty models, scalers, schema. -/
def freshState : MLState := ⟨[], [], []⟩

/-- A one-row feature table (fewer than 2 distinct rows). -/
def oneRowTbl : List TRow := [⟨"e1", 100, [3]⟩]

/-- A two-row feature table whose date range spans 5 days (< 14). -/
def shortSpanTbl : List TRow := [⟨"e1", 0, [1]⟩, ⟨"e2", 5, [2]⟩]

/-- A loaded model set with constant predictions. -/
def constModels : ModelSet := ⟨fun _ => 3, fun _ => 0, fun _ => false, fun _ => 1⟩

/-- A single review event for employee `emp1`. -/
def oneEvent : ReviewEvent := ⟨"mgr", "emp1", 10, "collaborative", 4, ""⟩

/-- A raw reviews DataFrame of one unparsed row, before any call to
`engineer_features`. -/
def rawDF0 : RawDF :=
  { reviewer_id := ["mgr"]
    reviewee_id := ["emp1"]
    date := [.str "2024-01-10"]
    descriptor := ["collaborative"]
    score := [4]
    comment := [""]
    descriptor_score := none }

/-! ## Claim theorems -/

variable {α : Type} [LinearOrder α]

theorem foldl_min_le_init (xs : List α) (a : α) : xs.foldl min a ≤ a := by
  induction xs generalizing a with
  | nil => exact le_refl a
  | cons y ys ih =>
      calc (y :: ys).foldl min a = ys.foldl min (min a y) := rfl
        _ ≤ min a y := ih (min a y)
        _ ≤ a := min_le_left a y

theorem foldl_min_le_mem {xs : List α} {x : α} (a : α) (hx : x ∈ xs) :
    xs.foldl min a ≤ x := by
  induction xs generalizing a with
  | nil => cases hx
  | cons y ys ih =>
      rcases List.mem_cons.mp hx with h | h
      · subst h
        calc (x :: ys).foldl min a = ys.foldl min (min a x) := rfl
          _ ≤ min a x := foldl_min_le_init ys (min a x)
          _ ≤ x := min_le_right a x
      · exact ih (min a y) h

theorem init_le_foldl_max (xs : List α) (a : α) : a ≤ xs.foldl max a := by
  induction xs generalizing a with
  | nil => exact le_refl a
  | cons y ys ih =>
      calc a ≤ max a y := le_max_left a y
        _ ≤ ys.foldl max (max a y) := ih (max a y)
        _ = (y :: ys).foldl max a := rfl

theorem mem_le_foldl_max {xs : List α} {x : α} (a : α) (hx : x ∈ xs) :
    x ≤ xs.foldl max a := by
  induction xs generalizing a with
  | nil => cases hx
  | cons y ys ih =>
      rcases List.mem_cons.mp hx with h | h
      · subst h
        calc x ≤ max a x := le_max_right a x
          _ ≤ ys.foldl max (max a x) := init_le_foldl_max ys (max a x)
      · exact ih (max a y) h

theorem listMin_le_mem {xs : List ℚ} {x : ℚ} (hx : x ∈ xs) : listMin xs ≤ x := by
  cases xs with
  | nil => cases hx
  | cons y ys =>
      rcases List.mem_cons.mp hx with h | h
      · subst h; exact foldl_min_le_init ys x
      · exact foldl_min_le_mem y h

theorem mem_le_listMax {xs : List ℚ} {x : ℚ} (hx : x ∈ xs) : x ≤ listMax xs := by
  cases xs with
  | nil => cases hx
  | cons y ys =>
      rcases List.mem_cons.mp hx with h | h
      · subst h; exact init_le_foldl_max ys x
      · exact mem_le_foldl_max y h

theorem eps_pos : 0 < eps := by norm_num [eps]

/-- The final rescale maps any member of a column into `[1, 5]`. -/
theorem rescale_mem_bounds {ws : List ℚ} {w : ℚ} (hw : w ∈ ws) :
    1 ≤ 1 + 4 * (w - listMin ws) / (listMax ws - listMin ws + eps) ∧
    1 + 4 * (w - listMin ws) / (listMax ws - listMin ws + eps) ≤ 5 := by
  have hmn : listMin ws ≤ w := listMin_le_mem hw
  have hmx : w ≤ listMax ws := mem_le_listMax hw
  have hden : 0 < listMax ws - listMin ws + eps := by
    have h1 : 0 ≤ listMax ws - listMin ws := by linarith
    have := eps_pos
    linarith
  constructor
  · have hq : 0 ≤ (w - listMin ws) / (listMax ws - listMin ws + eps) :=
      div_nonneg (by linarith) (le_of_lt hden)
    rw [mul_div_assoc]
    linarith
  · have hq : (w - listMin ws) / (listMax ws - listMin ws + eps) ≤ 1 := by
      rw [div_le_one hden]
      have := eps_pos
      linarith
    rw [mul_div_assoc]
    linarith


/-- C1: for every non-empty feature table, every value produced by
`create_composite_score` lies in `[1, 5]`: the weighted sum of the five
min–max-normalised features is itself min–max rescaled with the
`1e-8`-guarded denominator, so each row's composite score `s` satisfies
`1 ≤ s ≤ 5`. -/
theorem composite_score_in_one_five (rows : List FeatureRow) (s : ℚ)
    (hs : s ∈ create_composite_score rows) : 1 ≤ s ∧ s ≤ 5 := by
  simp only [create_composite_score] at hs
  obtain ⟨w, hw, rfl⟩ := List.mem_map.mp hs
  exact rescale_mem_bounds hw

/-- Witness for C1 at a concrete one-row table: its composite score is
exactly `1` and the theorem bounds it. -/
theorem composite_score_in_one_five_witness :
    (1 : ℚ) ∈ create_composite_score [⟨0, 0, 0, 0, 0⟩] ∧
    (1 : ℚ) ≤ 1 ∧ (1 : ℚ) ≤ 5 :=
  ⟨by norm_num [create_composite_score, rawComposite, normVal, listMin, listMax, eps],
   composite_score_in_one_five [⟨0, 0, 0, 0, 0⟩] 1
     (by norm_num [create_composite_score, rawComposite, normVal, listMin, listMax, eps])⟩

/-- The four descriptor match-counts of a group partition it when every
descriptor lies in the fixed 4-value set. -/
theorem descriptor_countP_sum (g : List ReviewEvent)
    (h : ∀ e ∈ g, e.descriptor = "collaborative" ∨ e.descriptor = "neutral" ∨
        e.descriptor = "withdrawn" ∨ e.descriptor = "blocking") :
    g.countP (fun e => e.descriptor == "collaborative")
      + g.countP (fun e => e.descriptor == "withdrawn")
      + g.countP (fun e => e.descriptor == "neutral")
      + g.countP (fun e => e.descriptor == "blocking") = g.length := by
  induction g with
  | nil => rfl
  | cons e g ih =>
      have he := h e (List.mem_cons_self e g)
      have ih' := ih (fun x hx => h x (List.mem_cons_of_mem e hx))
      rcases he with h1 | h1 | h1 | h1 <;>
        simp [List.countP_cons, h1] <;> omega

/-- The five score match-counts of a group partition it when every score
is an integer in `[1, 5]`. -/
theorem score_countP_sum (g : List ReviewEvent)
    (h : ∀ e ∈ g, 1 ≤ e.score ∧ e.score ≤ 5) :
    g.countP (fun e => e.score == 5) + g.countP (fun e => e.score == 4)
      + g.countP (fun e => e.score == 3) + g.countP (fun e => e.score == 2)
      + g.countP (fun e => e.score == 1) = g.length := by
  induction g with
  | nil => rfl
  | cons e g ih =>
      have he := h e (List.mem_cons_self e g)
      have ih' := ih (fun x hx => h x (List.mem_cons_of_mem e hx))
      have hcases : e.score = 1 ∨ e.score = 2 ∨ e.score = 3 ∨ e.score = 4 ∨
          e.score = 5 := by omega
      rcases hcases with h1 | h1 | h1 | h1 | h1 <;>
        simp [List.countP_cons, h1] <;> omega

/-- C7: for every `DailyFeatureVector` row built from a non-empty group of
events whose descriptors are among the four fixed values and whose scores
are integers in `[1, 5]`, the four descriptor proportions sum to `1` and
the five score-value proportions sum to `1` (exactly, in `ℚ`). -/
theorem daily_proportions_sum_one (reviewee : String) (day : Int)
    (g : List ReviewEvent) (hne : g ≠ [])
    (hdesc : ∀ e ∈ g, e.descriptor = "collaborative" ∨ e.descriptor = "neutral" ∨
        e.descriptor = "withdrawn" ∨ e.descriptor = "blocking")
    (hscore : ∀ e ∈ g, 1 ≤ e.score ∧ e.score ≤ 5) :
    (dailyRowOfGroup reviewee day g).pct_collaborative
      + (dailyRowOfGroup reviewee day g).pct_withdrawn
      + (dailyRowOfGroup reviewee day g).pct_neutral
      + (dailyRowOfGroup reviewee day g).pct_blocking = 1 ∧
    (dailyRowOfGroup reviewee day g).pct_score_5
      + (dailyRowOfGroup reviewee day g).pct_score_4
      + (dailyRowOfGroup reviewee day g).pct_score_3
      + (dailyRowOfGroup reviewee day g).pct_score_2
      + (dailyRowOfGroup reviewee day g).pct_score_1 = 1 := by
  have hlen : (0 : ℚ) < (g.length : ℚ) := by
    have : 0 < g.length := List.length_pos.mpr hne
    exact_mod_cast this
  constructor
  · have hsum := descriptor_countP_sum g hdesc
    simp only [dailyRowOfGroup, prop]
    rw [div_add_div_same, div_add_div_same, div_add_div_same]
    rw [show ((g.countP (fun e => e.descriptor == "collaborative") : ℚ)
        + (g.countP (fun e => e.descriptor == "withdrawn") : ℚ)
        + (g.countP (fun e => e.descriptor == "neutral") : ℚ)
        + (g.countP (fun e => e.descriptor == "blocking") : ℚ))
        = ((g.length : ℚ)) by exact_mod_cast congrArg (Nat.cast (R := ℚ)) hsum]
    exact div_self (ne_of_gt hlen)
  · have hsum := score_countP_sum g hscore
    simp only [dailyRowOfGroup, prop]
    rw [div_add_div_same, div_add_div_same, div_add_div_same, div_add_div_same]
    rw [show ((g.countP (fun e => e.score == 5) : ℚ)
        + (g.countP (fun e => e.score == 4) : ℚ)
        + (g.countP (fun e => e.score == 3) : ℚ)
        + (g.countP (fun e => e.score == 2) : ℚ)
        + (g.countP (fun e => e.score == 1) : ℚ))
        = ((g.length : ℚ)) by exact_mod_cast congrArg (Nat.cast (R := ℚ)) hsum]
    exact div_self (ne_of_gt hlen)

/-- Witness for C7: the end-to-end scenario-A group (three same-day events
with descriptors collaborative, collaborative, neutral and scores 4, 5, 3). -/
theorem daily_proportions_sum_one_witness :
    (dailyRowOfGroup "E" 0 scenarioA).pct_collaborative
      + (dailyRowOfGroup "E" 0 scenarioA).pct_withdrawn
      + (dailyRowOfGroup "E" 0 scenarioA).pct_neutral
      + (dailyRowOfGroup "E" 0 scenarioA).pct_blocking = 1 ∧
    (dailyRowOfGroup "E" 0 scenarioA).pct_score_5
      + (dailyRowOfGroup "E" 0 scenarioA).pct_score_4
      + (dailyRowOfGroup "E" 0 scenarioA).pct_score_3
      + (dailyRowOfGroup "E" 0 scenarioA).pct_score_2
      + (dailyRowOfGroup "E" 0 scenarioA).pct_score_1 = 1 :=
  daily_proportions_sum_one "E" 0 scenarioA (by decide) (by decide) (by decide)

/-- `getD` of a map over `List.range` at an in-range index. -/
theorem getD_map_range {β : Type} (f : Nat → β) (n i : Nat) (d : β) (hi : i < n) :
    ((List.range n).map f).getD i d = f i := by
  rw [List.getD_eq_getElem?_getD, List.getElem?_map, List.getElem?_range hi]
  rfl

/-- Closed form of the source's trend feature at a valid row index:
`diff(w).fillna(0)` is the raw value minus the raw value `w` rows
earlier, `0` in the first `w` rows. -/
theorem trendFeature_getD (w : Nat) (xs : List ℚ) (i : Nat) (hi : i < xs.length) :
    (trendFeature w xs).getD i 0 =
      if w ≤ i then xs.getD i 0 - xs.getD (i - w) 0 else 0 := by
  rw [trendFeature, fillna, diffSeries, List.map_map]
  rw [getD_map_range _ _ _ _ hi]
  by_cases h : w ≤ i <;> simp [h]

/-- Closed form of the spec-worded trend at a valid row index. -/
theorem specTrendFeature_getD (w : Nat) (xs : List ℚ) (i : Nat) (hi : i < xs.length) :
    (specTrendFeature w xs).getD i 0 =
      if w ≤ i then
        (fillna 0 (rollingMeanOpt w xs)).getD i 0
          - (fillna 0 (rollingMeanOpt w xs)).getD (i - w) 0
      else 0 := by
  rw [specTrendFeature]
  rw [getD_map_range _ _ _ _ hi]

/-- The filled rolling mean at a valid row index is the mean of the
trailing window. -/
theorem rollingMean_fill_getD (w : Nat) (xs : List ℚ) (i : Nat) (hi : i < xs.length)
    (hw : 1 ≤ w) :
    (fillna 0 (rollingMeanOpt w xs)).getD i 0 = mean (windowSlice xs i w) := by
  rw [fillna, rollingMeanOpt, List.map_map, getD_map_range _ _ _ _ hi]
  have hlen : 1 ≤ (windowSlice xs i w).length := by
    simp only [windowSlice, List.length_drop, List.length_take]
    omega
  simp [hlen]

/-- C2 counterexample: on the eight-row series `0,…,0,1` with `W = 7`, the
code's trend at the last row is `1` (raw difference) while the spec's
rolling-mean difference is `1/7`; the two feature columns differ. -/
theorem trend_differs_from_rolling_mean_diff :
    (trendFeature 7 trendCex).getD 7 0 = 1 ∧
    (specTrendFeature 7 trendCex).getD 7 0 = 1 / 7 ∧
    trendFeature 7 trendCex ≠ specTrendFeature 7 trendCex := by
  have hlen : (7 : Nat) < trendCex.length := by decide
  have h1 : (trendFeature 7 trendCex).getD 7 0 = 1 := by
    rw [trendFeature_getD 7 trendCex 7 hlen]
    norm_num [trendCex]
  have h2 : (specTrendFeature 7 trendCex).getD 7 0 = 1 / 7 := by
    rw [specTrendFeature_getD 7 trendCex 7 hlen]
    rw [if_pos (by norm_num)]
    rw [rollingMean_fill_getD 7 trendCex 7 hlen (by norm_num),
      rollingMean_fill_getD 7 trendCex 0 (by decide) (by norm_num)]
    norm_num [trendCex, windowSlice, mean]
  refine ⟨h1, h2, fun h => ?_⟩
  have h3 := congrArg (fun l => l.getD 7 0) h
  simp only at h3
  rw [h1, h2] at h3
  norm_num at h3

/-- C2 amended: for every employee series and every window `W`, the trend
feature of a row is the current raw `avg_score` minus the raw `avg_score`
`W` rows earlier for the same employee (not a difference of rolling
means), and `0` when fewer than `W` prior rows exist. -/
theorem trend_is_raw_difference (w : Nat) (xs : List ℚ) (i : Nat)
    (hi : i < xs.length) :
    (w ≤ i → (trendFeature w xs).getD i 0 = xs.getD i 0 - xs.getD (i - w) 0) ∧
    (i < w → (trendFeature w xs).getD i 0 = 0) := by
  constructor
  · intro h
    rw [trendFeature_getD w xs i hi, if_pos h]
  · intro h
    rw [trendFeature_getD w xs i hi, if_neg (by omega)]

/-- Witness for the amended C2 at the concrete series, row 7, `W = 7`. -/
theorem trend_is_raw_difference_witness :
    (7 : Nat) < trendCex.length ∧
    ((7 ≤ 7 → (trendFeature 7 trendCex).getD 7 0 = trendCex.getD 7 0 - trendCex.getD 0 0) ∧
      (7 < 7 → (trendFeature 7 trendCex).getD 7 0 = 0)) :=
  ⟨by decide, trend_is_raw_difference 7 trendCex 7 (by decide)⟩

/-- C6: rolling and trend features are never NaN: with the
minimum-period-of-one policy every rolling mean at a valid row index is
defined, and for a single-event history the rolling mean equals that
event's aggregate, the (NaN-filled) volatility is `0`, and the trend is
`0`. -/
theorem rolling_features_never_nan (w : Nat) (hw : 1 ≤ w) (xs : List ℚ) (x : ℚ) :
    (∀ i, i < xs.length → ((rollingMeanOpt w xs).getD i none).isSome = true) ∧
    rollingMeanOpt w [x] = [some x] ∧
    fillna 0 (rollingStdOpt w [x]) = [0] ∧
    trendFeature w [x] = [0] := by
  have h1w : 1 - w = 0 := Nat.sub_eq_zero_of_le hw
  have hr1 : List.range 1 = [0] := rfl
  refine ⟨?_, ?_, ?_, ?_⟩
  · intro i hi
    rw [rollingMeanOpt, getD_map_range _ _ _ _ hi]
    have hlen : 1 ≤ (windowSlice xs i w).length := by
      simp only [windowSlice, List.length_drop, List.length_take]
      omega
    simp [hlen]
  · simp [rollingMeanOpt, windowSlice, hr1, h1w, mean]
  · have h2 : ¬ (2 ≤ (windowSlice [x] 0 w).length) := by
      simp [windowSlice, h1w]
    simp [rollingStdOpt, fillna, hr1, h2]
  · have h0 : ¬ (w ≤ 0) := by omega
    simp [trendFeature, diffSeries, fillna, hr1, h0]

/-- Witness for C6 at `w = 3`, a two-row series and a singleton series. -/
theorem rolling_features_never_nan_witness :
    1 ≤ 3 ∧
    ((∀ i, i < ([2, 5] : List ℚ).length →
        ((rollingMeanOpt 3 [2, 5]).getD i none).isSome = true) ∧
      rollingMeanOpt 3 [(7 : ℚ)] = [some 7] ∧
      fillna 0 (rollingStdOpt 3 [(7 : ℚ)]) = [0] ∧
      trendFeature 3 [(7 : ℚ)] = [0]) :=
  ⟨by decide, rolling_features_never_nan 3 (by decide) [2, 5] 7⟩

/-- C3 counterexample: at a concrete training table and inference table,
the feature columns used at prediction differ from the recorded schema —
the extra inference column is used (not ignored), and a schema column
absent from the inference table is dropped (not zero-filled). -/
theorem predict_columns_ignore_schema_cex :
    predict_feature_columns inferColsCex ≠ train_feature_columns trainColsCex ∧
    "extra_col" ∈ predict_feature_columns inferColsCex ∧
    "extra_col" ∉ train_feature_columns trainColsCex ∧
    "avg_score" ∈ train_feature_columns trainColsCex ∧
    "avg_score" ∉ predict_feature_columns ["employee_id", "date"] := by decide

/-- C3 amended: prediction recomputes its feature columns from the
inference table alone (every column except `employee_id`, `date`,
`composite_score`, in table order) without consulting the recorded
schema: any non-excluded column of the inference table is used, and no
column absent from the inference table is used. -/
theorem predict_columns_from_inference_table (cols : List String) (c : String)
    (hc : c ∈ cols) (h1 : c ≠ "employee_id") (h2 : c ≠ "date")
    (h3 : c ≠ "composite_score") :
    c ∈ predict_feature_columns cols ∧
    (∀ c', c' ∉ cols → c' ∉ predict_feature_columns cols) := by
  constructor
  · rw [predict_feature_columns, List.mem_filter]
    exact ⟨hc, by simp [h1, h2, h3]⟩
  · intro c' hc' hmem
    exact hc' (List.mem_of_mem_filter hmem)

/-- Witness for the amended C3 at the concrete inference columns. -/
theorem predict_columns_from_inference_table_witness :
    ("avg_score" ∈ inferColsCex ∧ "avg_score" ≠ "employee_id" ∧
      "avg_score" ≠ "date" ∧ "avg_score" ≠ "composite_score") ∧
    ("avg_score" ∈ predict_feature_columns inferColsCex ∧
      (∀ c', c' ∉ inferColsCex → c' ∉ predict_feature_columns inferColsCex)) :=
  ⟨⟨by decide, by decide, by decide, by decide⟩,
   predict_columns_from_inference_table inferColsCex "avg_score"
     (by decide) (by decide) (by decide) (by decide)⟩

/-- C9: `engineer_features` mutates its input DataFrame in place: after
the call the caller's frame has its `date` column converted to datetime
cells and carries a freshly added `descriptor_score` column, so the input
is not left unchanged. -/
theorem engineer_features_mutates_input (parse : String → Int) (df : RawDF)
    (habsent : df.descriptor_score = none) :
    (engineer_features_mutation parse df).descriptor_score =
      some (df.descriptor.map descriptor_scores) ∧
    (∀ v ∈ (engineer_features_mutation parse df).date, v.isDt = true) ∧
    engineer_features_mutation parse df ≠ df := by
  refine ⟨rfl, ?_, ?_⟩
  · intro v hv
    obtain ⟨u, hu, rfl⟩ := List.mem_map.mp hv
    cases u <;> rfl
  · intro h
    have h2 := congrArg RawDF.descriptor_score h
    simp [engineer_features_mutation, habsent] at h2

/-- Witness for C9 at a concrete one-row raw frame. -/
theorem engineer_features_mutates_input_witness :
    rawDF0.descriptor_score = none ∧
    ((engineer_features_mutation (fun _ => 0) rawDF0).descriptor_score =
      some (rawDF0.descriptor.map descriptor_scores) ∧
    (∀ v ∈ (engineer_features_mutation (fun _ => 0) rawDF0).date, v.isDt = true) ∧
    engineer_features_mutation (fun _ => 0) rawDF0 ≠ rawDF0) :=
  ⟨rfl, engineer_features_mutates_input (fun _ => 0) rawDF0 rfl⟩

/-- Any key is a member of the dictionary after assigning it. -/
theorem mem_insertKey (k : String) (l : List String) : k ∈ insertKey k l := by
  rw [insertKey]
  split
  · assumption
  · exact List.mem_append_right _ (List.mem_singleton_self k)

theorem foldl_max_le {xs : List α} {a b : α} (hab : a ≤ b)
    (h : ∀ x ∈ xs, x ≤ b) : xs.foldl max a ≤ b := by
  induction xs generalizing a with
  | nil => exact hab
  | cons y ys ih =>
      exact ih (max_le hab (h y (List.mem_cons_self y ys)))
        (fun x hx => h x (List.mem_cons_of_mem y hx))

theorem listMinInt_le_mem {xs : List Int} {x : Int} (hx : x ∈ xs) :
    listMinInt xs ≤ x := by
  cases xs with
  | nil => cases hx
  | cons y ys =>
      rcases List.mem_cons.mp hx with h | h
      · subst h; exact foldl_min_le_init ys x
      · exact foldl_min_le_mem y h

theorem mem_le_listMaxInt {xs : List Int} {x : Int} (hx : x ∈ xs) :
    x ≤ listMaxInt xs := by
  cases xs with
  | nil => cases hx
  | cons y ys =>
      rcases List.mem_cons.mp hx with h | h
      · subst h; exact init_le_foldl_max ys x
      · exact mem_le_foldl_max y h

theorem listMaxInt_le {xs : List Int} {b : Int} (hne : xs ≠ [])
    (h : ∀ x ∈ xs, x ≤ b) : listMaxInt xs ≤ b := by
  cases xs with
  | nil => exact absurd rfl hne
  | cons y ys =>
      exact foldl_max_le (h y (List.mem_cons_self y ys))
        (fun x hx => h x (List.mem_cons_of_mem y hx))

/-- When every row's date lies inside the 14-day holdout window, the
training partition is empty: `train_models` stops with the regressor fit
error after having recorded the schema and the `score_predictor` key. -/
theorem train_models_empty_train (s : MLState) (cols : List String)
    (tbl : List TRow) (hne : tbl ≠ [])
    (h : ∀ r ∈ tbl, ¬ (r.date ≤ listMaxInt (tbl.map TRow.date) - 14)) :
    train_models s cols tbl =
      ({ models := insertKey "score_predictor" s.models
         scalers := s.scalers
         feature_names := train_feature_columns cols },
       some "RandomForestRegressor.fit: 0 samples") := by
  have hempty : tbl.isEmpty = false := List.isEmpty_eq_false.mpr hne
  have hfil : tbl.filter
      (fun r => decide (r.date ≤ listMaxInt (tbl.map TRow.date) - 14)) = [] := by
    rw [List.filter_eq_nil_iff]
    intro a ha
    simpa using h a ha
  simp only [train_models, hempty, Bool.false_eq_true, if_false, hfil,
    List.isEmpty_nil, if_true]

/-- C4 counterexample: training `train_models` on a one-row table (fewer
than 2 distinct rows) from a fresh pipeline fails with the downstream
regressor-fit error — there is no dedicated insufficient-data error — and
the pipeline state is already mutated when it fails: the schema
(`feature_names`) went from empty to the discovered columns and the
`score_predictor` key was added. -/
theorem train_mutates_state_on_one_row_cex :
    (train_models freshState trainColsCex oneRowTbl).1.feature_names = ["avg_score"] ∧
    freshState.feature_names = [] ∧
    "score_predictor" ∈ (train_models freshState trainColsCex oneRowTbl).1.models ∧
    (train_models freshState trainColsCex oneRowTbl).2 =
      some "RandomForestRegressor.fit: 0 samples" := by decide

/-- C4 amended: for every non-empty feature table with fewer than 2
distinct rows (all rows equal), training fails — but with the generic
error of fitting the regressor on the empty training partition, not a
dedicated `InsufficientTrainingData` error, and the pipeline's schema and
`score_predictor` model entry are already updated when it fails. -/
theorem train_on_degenerate_table_errors_after_mutation (s : MLState)
    (cols : List String) (tbl : List TRow) (hne : tbl ≠ [])
    (hdup : ∀ r ∈ tbl, r = tbl.head hne) :
    (train_models s cols tbl).2 = some "RandomForestRegressor.fit: 0 samples" ∧
    (train_models s cols tbl).1.feature_names = train_feature_columns cols ∧
    "score_predictor" ∈ (train_models s cols tbl).1.models := by
  have hd : ∀ r ∈ tbl, r.date = (tbl.head hne).date := fun r hr => by
    rw [hdup r hr]
  have hmax : listMaxInt (tbl.map TRow.date) = (tbl.head hne).date := by
    apply le_antisymm
    · apply listMaxInt_le (by simpa using hne)
      intro x hx
      obtain ⟨r, hr, rfl⟩ := List.mem_map.mp hx
      rw [hd r hr]
    · exact mem_le_listMaxInt (List.mem_map_of_mem _ (List.head_mem hne))
  have h : ∀ r ∈ tbl, ¬ (r.date ≤ listMaxInt (tbl.map TRow.date) - 14) := by
    intro r hr
    rw [hmax, hd r hr]
    omega
  rw [train_models_empty_train s cols tbl hne h]
  exact ⟨rfl, rfl, mem_insertKey _ _⟩

/-- Witness for the amended C4 at the concrete one-row table. -/
theorem train_on_degenerate_table_witness :
    (∀ r ∈ oneRowTbl, r = oneRowTbl.head (by decide)) ∧
    ((train_models freshState trainColsCex oneRowTbl).2 =
        some "RandomForestRegressor.fit: 0 samples" ∧
      (train_models freshState trainColsCex oneRowTbl).1.feature_names =
        train_feature_columns trainColsCex ∧
      "score_predictor" ∈ (train_models freshState trainColsCex oneRowTbl).1.models) :=
  ⟨by decide, train_on_degenerate_table_errors_after_mutation freshState
    trainColsCex oneRowTbl (by decide) (by decide)⟩

/-- C8 counterexample: on a concrete two-row table spanning 5 days
(< 14), training does not complete with undefined metrics — it raises the
regressor-fit error, because the *training* partition (not the holdout)
is empty. -/
theorem train_short_span_errors_cex :
    (train_models freshState trainColsCex shortSpanTbl).2 =
      some "RandomForestRegressor.fit: 0 samples" := by decide

/-- C8 amended: for every non-empty feature table whose date range spans
fewer than 14 days, every row falls in the 14-day holdout window, the
training partition is empty, and `train_models` raises the regressor-fit
error instead of completing; no metrics are reported. -/
theorem train_errors_on_short_span (s : MLState) (cols : List String)
    (tbl : List TRow) (hne : tbl ≠ [])
    (hspan : listMaxInt (tbl.map TRow.date) - listMinInt (tbl.map TRow.date) < 14) :
    (train_models s cols tbl).2 = some "RandomForestRegressor.fit: 0 samples" := by
  have h : ∀ r ∈ tbl, ¬ (r.date ≤ listMaxInt (tbl.map TRow.date) - 14) := by
    intro r hr
    have hmin : listMinInt (tbl.map TRow.date) ≤ r.date :=
      listMinInt_le_mem (List.mem_map_of_mem _ hr)
    omega
  rw [train_models_empty_train s cols tbl hne h]

/-- Witness for the amended C8 at the concrete short-span table. -/
theorem train_errors_on_short_span_witness :
    (shortSpanTbl ≠ [] ∧
      listMaxInt (shortSpanTbl.map TRow.date)
        - listMinInt (shortSpanTbl.map TRow.date) < 14) ∧
    (train_models freshState trainColsCex shortSpanTbl).2 =
      some "RandomForestRegressor.fit: 0 samples" :=
  ⟨⟨by decide, by decide⟩,
   train_errors_on_short_span freshState trainColsCex shortSpanTbl
     (by decide) (by decide)⟩

theorem insertIfNew_ne_nil (acc : List Int) (x : Int) : insertIfNew acc x ≠ [] := by
  rw [insertIfNew]
  split
  · next hmem => exact List.ne_nil_of_mem hmem
  · simp

theorem foldl_insertIfNew_ne_nil (l : List Int) (acc : List Int) (h : acc ≠ []) :
    l.foldl insertIfNew acc ≠ [] := by
  induction l generalizing acc with
  | nil => exact h
  | cons z zs ih => exact ih _ (insertIfNew_ne_nil acc z)

theorem uniqueInts_ne_nil {xs : List Int} (h : xs ≠ []) : uniqueInts xs ≠ [] := by
  cases xs with
  | nil => exact absurd rfl h
  | cons y ys =>
      exact foldl_insertIfNew_ne_nil ys (insertIfNew [] y) (insertIfNew_ne_nil [] y)

theorem insertSorted_length (x : Int) (l : List Int) :
    (insertSorted x l).length = l.length + 1 := by
  induction l with
  | nil => rfl
  | cons y ys ih =>
      rw [insertSorted]
      split
      · rfl
      · simp only [List.length_cons, ih]

theorem sortInts_length (xs : List Int) : (sortInts xs).length = xs.length := by
  induction xs with
  | nil => rfl
  | cons x xs ih =>
      show (insertSorted x (sortInts xs)).length = xs.length + 1
      rw [insertSorted_length, ih]

theorem insightRows_length (emp : String) (evs : List ReviewEvent) :
    (insightRows emp evs).length =
      (sortInts (uniqueInts (evs.map ReviewEvent.date))).length := by
  simp [insightRows]

theorem insightRows_ne_nil (emp : String) {evs : List ReviewEvent}
    (h : evs ≠ []) : insightRows emp evs ≠ [] := by
  rw [← List.length_pos, insightRows_length, sortInts_length, List.length_pos]
  exact uniqueInts_ne_nil (by simpa using h)

/-- Every engineered row of the insight path has no `composite_score`,
`is_anomaly` or `behavior_cluster` column (they were never added). -/
theorem insightRows_ml_fields_none (emp : String) (evs : List ReviewEvent)
    {r : IRow} (hr : r ∈ insightRows emp evs) :
    r.composite_score = none ∧ r.is_anomaly = none ∧ r.behavior_cluster = none := by
  simp only [insightRows] at hr
  obtain ⟨i, hi, rfl⟩ := List.mem_map.mp hr
  exact ⟨rfl, rfl, rfl⟩

/-- `predict_scores` never touches the `composite_score` column. -/
theorem predict_scores_composite (m : ModelSet) (rows : List IRow) {r : IRow}
    (hr : r ∈ predict_scores m rows) :
    ∃ r0 ∈ rows, r.composite_score = r0.composite_score := by
  simp only [predict_scores] at hr
  obtain ⟨r0, hr0, rfl⟩ := List.mem_map.mp hr
  exact ⟨r0, hr0, rfl⟩

/-- With or without a loaded model set, the insight's `composite_score`
field is the default `0`: no step of the insight path ever creates the
`composite_score` column. -/
theorem insightComposite_eq_zero (m : Option ModelSet) (emp : String)
    (evs : List ReviewEvent) (hne : evs ≠ []) :
    insightComposite (get_employee_insights m emp evs) = some 0 := by
  have hrows0 : insightRows emp evs ≠ [] := insightRows_ne_nil emp hne
  have hie : evs.isEmpty = false := List.isEmpty_eq_false.mpr hne
  cases m with
  | none =>
      have hlast := List.getLast?_eq_getLast_of_ne_nil hrows0
      have hnone :=
        (insightRows_ml_fields_none emp evs (List.getLast_mem hrows0)).1
      simp [get_employee_insights, hie, hlast, insightComposite, hnone]
  | some ms =>
      have hrows : predict_scores ms (insightRows emp evs) ≠ [] := by
        simp only [predict_scores, ne_eq, List.map_eq_nil_iff]
        exact hrows0
      have hlast := List.getLast?_eq_getLast_of_ne_nil hrows
      obtain ⟨r0, hr0, heq⟩ :=
        predict_scores_composite ms (insightRows emp evs) (List.getLast_mem hrows)
      have hnone := (insightRows_ml_fields_none emp evs hr0).1
      simp [get_employee_insights, hie, hlast, insightComposite, heq, hnone]

/-- On a one-row table the composite score is exactly `1` (degenerate
min–max rescale with the epsilon guard). -/
theorem create_composite_score_single (r : FeatureRow) :
    create_composite_score [r] = [1] := by
  simp [create_composite_score, listMin, listMax]

/-- C5 counterexample: for a one-event slice and a loaded model set, the
insight's `composite_score` is the default `0`, while the Composite
Scorer on the engineered slice yields `1` for its most recent (only)
row: the assembler never ran the Composite Scorer. -/
theorem insight_composite_not_from_scorer_cex :
    insightComposite (get_employee_insights (some constModels) "emp1" [oneEvent])
      = some 0 ∧
    create_composite_score ((insightRows "emp1" [oneEvent]).map featureRowOfIRow)
      = [1] ∧
    some (0 : ℚ) ≠ some (1 : ℚ) := by
  refine ⟨insightComposite_eq_zero (some constModels) "emp1" [oneEvent] (by decide),
    ?_, by simp⟩
  have hlen : (insightRows "emp1" [oneEvent]).length = 1 := by
    rw [insightRows_length, sortInts_length]
    decide
  obtain ⟨r, hr⟩ := List.length_eq_one.mp hlen
  rw [hr, List.map_singleton, create_composite_score_single]

/-- C5 amended: the insight assembler runs the Feature Engineer on the
windowed slice but never the Composite Scorer, so for every employee with
at least one event in the window the returned insight's
`composite_score` is the default `0`, regardless of any loaded model
set. -/
theorem insight_composite_is_default_zero (m : Option ModelSet) (emp : String)
    (evs : List ReviewEvent) (hne : evs ≠ []) :
    insightComposite (get_employee_insights m emp evs) = some 0 :=
  insightComposite_eq_zero m emp evs hne

/-- Witness for the amended C5 at a concrete one-event slice with a
loaded model set. -/
theorem insight_composite_is_default_zero_witness :
    ([oneEvent] ≠ []) ∧
    insightComposite (get_employee_insights (some constModels) "emp1" [oneEvent])
      = some 0 :=
  ⟨by decide,
   insight_composite_is_default_zero (some constModels) "emp1" [oneEvent] (by decide)⟩

/-- C10: with no trained model set loaded, `get_employee_insights` for an
employee with data in the window returns the concrete defaults
`composite_score = 0`, `is_anomaly = False`, `behavior_cluster = 0` —
plain values of the same type as genuine ones, not absent markers. -/
theorem insight_defaults_without_models (emp : String)
    (evs : List ReviewEvent) (hne : evs ≠ []) :
    ∃ i : EmployeeInsight, get_employee_insights none emp evs = .insight i ∧
      i.composite_score = 0 ∧ i.is_anomaly = false ∧ i.behavior_cluster = 0 := by
  have hrows0 : insightRows emp evs ≠ [] := insightRows_ne_nil emp hne
  have hie : evs.isEmpty = false := List.isEmpty_eq_false.mpr hne
  have hlast := List.getLast?_eq_getLast_of_ne_nil hrows0
  obtain ⟨h1, h2, h3⟩ :=
    insightRows_ml_fields_none emp evs (List.getLast_mem hrows0)
  refine ⟨{ employee_id := emp
            avg_score := ((insightRows emp evs).getLast hrows0).avg_score
            composite_score :=
              ((insightRows emp evs).getLast hrows0).composite_score.getD 0
            collaboration_rate :=
              ((insightRows emp evs).getLast hrows0).pct_collaborative
            withdrawn_rate :=
              ((insightRows emp evs).getLast hrows0).pct_withdrawn
            score_trend_7d :=
              ((insightRows emp evs).getLast hrows0).score_trend_7d
            is_anomaly :=
              ((insightRows emp evs).getLast hrows0).is_anomaly.getD false
            behavior_cluster :=
              ((insightRows emp evs).getLast hrows0).behavior_cluster.getD 0
            total_reviews := ((insightRows emp evs).map IRow.review_count).sum },
    ?_, ?_, ?_, ?_⟩
  · simp [get_employee_insights, hie, hlast]
  · simp [h1]
  · simp [h2]
  · simp [h3]

/-- Witness for C10 at a concrete one-event slice without models. -/
theorem insight_defaults_without_models_witness :
    ([oneEvent] ≠ []) ∧
    (∃ i : EmployeeInsight, get_employee_insights none "emp1" [oneEvent] = .insight i ∧
      i.composite_score = 0 ∧ i.is_anomaly = false ∧ i.behavior_cluster = 0) :=
  ⟨by decide, insight_defaults_without_models "emp1" [oneEvent] (by decide)⟩
end PeerReview
